import Mathlib

deriving instance DecidableEq for Except

/-!
Verification development for the `nsm-nitro-enclave-utils` repository.

This file gives a shallow embedding, in Lean 4, of the repository's core
operations and proves the specification claims about them:

* the PCR registry of `src/nsm-nitro-enclave-utils/src/pcr.rs`
  (`PcrIndex`, `Pcr`, `Pcrs` and their constructors/accessors);
* the superseded usize-indexed registry of
  `src/nsm-nitro-enclave-utils/src/phony/pcrs.rs` (`checked_get`/`checked_set`);
* the COSE signer of `src/nsm-nitro-enclave-utils/src/sign.rs`;
* the verifier of `src/nsm-nitro-enclave-utils/src/verify/mod.rs` and
  `src/nsm-nitro-enclave-utils/src/verify/cert.rs`;
* the revocation-aware chain verifier of the superseded revision
  `src/src/cert.rs`;
* the mock driver of `src/nsm-nitro-enclave-utils/src/driver/dev/driver.rs`;
* the `Time` wrapper of `src/nsm-nitro-enclave-utils/src/time.rs`.

External collaborators (the `ciborium`/`coset` CBOR and COSE codecs, the
`p384` ECDSA implementation, the `webpki` path validator, the `sha2` digest)
are modelled at their boundary, as the specification prescribes: the CBOR and
COSE serializers are modelled as an executable injective token encoding with a
matching decoder; ECDSA P-384 is modelled symbolically (a signature carries
the signing key's public counterpart and the exact signed message, and
verification succeeds precisely on that pair); `webpki`'s
`verify_for_usage` is modelled as an executable chain walk with validity-window
and revocation checking; SHA-384 is implemented in full (FIPS 180-4).
Everything is executable; machine integers are modelled as `Nat` with explicit
reduction modulo `2 ^ 64` where the source relies on 64-bit wrap-around.
-/

/-! ## Token-level codec

Boundary model of the CBOR serializers used by the source
(`AttestationDoc::to_binary` / `from_binary` from `aws-nitro-enclaves-nsm-api`,
and `coset`'s `CoseSign1` serialization): a self-delimiting, injective
encoding of the serialized records into a list of `Nat` tokens, together with
a matching decoder.  Each decoder consumes a prefix of the token list and
returns the decoded value plus the remaining tokens. -/

namespace Codec

/-- Encode a raw byte string: a length token followed by the bytes. -/
def encBytes (bs : List Nat) : List Nat := bs.length :: bs

/-- Decode a raw byte string. -/
def decBytes : List Nat → Option (List Nat × List Nat)
  | [] => none
  | n :: rest => if n ≤ rest.length then some (rest.take n, rest.drop n) else none

/-- Encode a single natural number as one token. -/
def encNat (n : Nat) : List Nat := [n]

/-- Decode a single natural number token. -/
def decNat : List Nat → Option (Nat × List Nat)
  | [] => none
  | n :: rest => some (n, rest)

/-- Encode an optional value: tag token 0 for absent, 1 followed by the value. -/
def encOpt (f : α → List Nat) : Option α → List Nat
  | none => [0]
  | some x => 1 :: f x

/-- Decode an optional value. -/
def decOpt (d : List Nat → Option (α × List Nat)) : List Nat → Option (Option α × List Nat)
  | 0 :: rest => some (none, rest)
  | 1 :: rest => (d rest).map fun p => (some p.1, p.2)
  | _ => none

/-- Decode exactly `n` values in sequence. -/
def decCount (d : List Nat → Option (α × List Nat)) : Nat → List Nat → Option (List α × List Nat)
  | 0, l => some ([], l)
  | n + 1, l =>
    match d l with
    | none => none
    | some (x, rest) => (decCount d n rest).map fun p => (x :: p.1, p.2)

/-- Encode a list: a count token followed by the encodings of the elements. -/
def encList (f : α → List Nat) (xs : List α) : List Nat :=
  xs.length :: (xs.map f).foldr (· ++ ·) []

/-- Decode a list. -/
def decList (d : List Nat → Option (α × List Nat)) : List Nat → Option (List α × List Nat)
  | [] => none
  | n :: rest => decCount d n rest

/-- Encode a string as the list of its characters' code points. -/
def encString (s : String) : List Nat := encBytes (s.data.map Char.toNat)

/-- Decode a string. -/
def decString (l : List Nat) : Option (String × List Nat) :=
  (decBytes l).map fun p => (String.mk (p.1.map Char.ofNat), p.2)

/-- Encode a PCR-map entry (index, digest bytes). -/
def encEntry (e : Nat × List Nat) : List Nat := encNat e.1 ++ encBytes e.2

/-- Decode a PCR-map entry. -/
def decEntry (l : List Nat) : Option ((Nat × List Nat) × List Nat) :=
  match decNat l with
  | none => none
  | some (i, rest) => (decBytes rest).map fun p => ((i, p.1), p.2)

end Codec

/-! ## SHA-384

Full FIPS 180-4 implementation of SHA-384 over byte lists, used by
`Pcrs::seed` in `src/nsm-nitro-enclave-utils/src/pcr.rs` (the source calls the
external `sha2::Sha384`; the algorithm is implemented here in full so that the
embedding of `seed` computes real digests).  64-bit machine words are `Nat`
reduced modulo `2 ^ 64`. -/

namespace Sha384

/-- Reduce modulo `2 ^ 64` (64-bit wrap-around). -/
def w64 (n : Nat) : Nat := n % 18446744073709551616

/-- Right rotation of a 64-bit word. -/
def rotr (x n : Nat) : Nat := w64 (Nat.lor (x >>> n) (x <<< (64 - n)))

/-- The 80 SHA-512 round constants. -/
def K : List Nat := [
  4794697086780616226, 8158064640168781261, 13096744586834688815, 16840607885511220156,
  4131703408338449720, 6480981068601479193, 10538285296894168987, 12329834152419229976,
  15566598209576043074, 1334009975649890238, 2608012711638119052, 6128411473006802146,
  8268148722764581231, 9286055187155687089, 11230858885718282805, 13951009754708518548,
  16472876342353939154, 17275323862435702243, 1135362057144423861, 2597628984639134821,
  3308224258029322869, 5365058923640841347, 6679025012923562964, 8573033837759648693,
  10970295158949994411, 12119686244451234320, 12683024718118986047, 13788192230050041572,
  14330467153632333762, 15395433587784984357, 489312712824947311, 1452737877330783856,
  2861767655752347644, 3322285676063803686, 5560940570517711597, 5996557281743188959,
  7280758554555802590, 8532644243296465576, 9350256976987008742, 10552545826968843579,
  11727347734174303076, 12113106623233404929, 14000437183269869457, 14369950271660146224,
  15101387698204529176, 15463397548674623760, 17586052441742319658, 1182934255886127544,
  1847814050463011016, 2177327727835720531, 2830643537854262169, 3796741975233480872,
  4115178125766777443, 5681478168544905931, 6601373596472566643, 7507060721942968483,
  8399075790359081724, 8693463985226723168, 9568029438360202098, 10144078919501101548,
  10430055236837252648, 11840083180663258601, 13761210420658862357, 14299343276471374635,
  14566680578165727644, 15097957966210449927, 16922976911328602910, 17689382322260857208,
  500013540394364858, 748580250866718886, 1242879168328830382, 1977374033974150939,
  2944078676154940804, 3659926193048069267, 4368137639120453308, 4836135668995329356,
  5532061633213252278, 6448918945643986474, 6902733635092675308, 7801388544844847127]

/-- The SHA-384 initial hash value (eight 64-bit words). -/
def IV : List Nat := [
  14680500436340154072, 7105036623409894663, 10473403895298186519, 1526699215303891257,
  7436329637833083697, 10282925794625328401, 15784041429090275239, 5167115440072839076]

/-- Big-endian 16-byte encoding of the bit length. -/
def lenBytes (n : Nat) : List Nat :=
  (List.range 16).map fun i => n / 256 ^ (15 - i) % 256

/-- FIPS 180-4 message padding to a multiple of 128 bytes. -/
def pad (m : List Nat) : List Nat :=
  m ++ 128 :: List.replicate ((128 - (m.length + 17) % 128) % 128) 0
    ++ lenBytes (8 * m.length)

/-- Split a list into 128-byte blocks (structural recursion on a fuel
bound, so that the definition reduces by evaluation; the fuel is an upper
bound on the number of blocks). -/
def chunksAux : Nat → List Nat → List (List Nat)
  | 0, _ => []
  | _, [] => []
  | fuel + 1, x :: xs => (x :: xs).take 128 :: chunksAux fuel ((x :: xs).drop 128)

/-- Split the padded message into 128-byte blocks. -/
def chunks (l : List Nat) : List (List Nat) :=
  chunksAux l.length l

/-- The `j`-th big-endian 64-bit word of a 128-byte block. -/
def wordAt (blk : List Nat) (j : Nat) : Nat :=
  (List.range 8).foldl (fun acc i => acc * 256 + blk.getD (8 * j + i) 0) 0

/-- σ₀ message-schedule function. -/
def ssig0 (x : Nat) : Nat := Nat.xor (Nat.xor (rotr x 1) (rotr x 8)) (x >>> 7)

/-- σ₁ message-schedule function. -/
def ssig1 (x : Nat) : Nat := Nat.xor (Nat.xor (rotr x 19) (rotr x 61)) (x >>> 6)

/-- Σ₀ compression function. -/
def bsig0 (x : Nat) : Nat := Nat.xor (Nat.xor (rotr x 28) (rotr x 34)) (rotr x 39)

/-- Σ₁ compression function. -/
def bsig1 (x : Nat) : Nat := Nat.xor (Nat.xor (rotr x 14) (rotr x 18)) (rotr x 41)

/-- Extend the 16 block words to the 80-entry message schedule. -/
def sched (ws : List Nat) : List Nat :=
  (List.range 64).foldl
    (fun ws i =>
      let t := i + 16
      ws ++ [w64 (ws.getD (t - 16) 0 + ssig0 (ws.getD (t - 15) 0)
        + ws.getD (t - 7) 0 + ssig1 (ws.getD (t - 2) 0))])
    ws

/-- One SHA-512 round on the working variables `[a,b,c,d,e,f,g,h]`. -/
def round (st : List Nat) (wt kt : Nat) : List Nat :=
  let a := st.getD 0 0
  let b := st.getD 1 0
  let c := st.getD 2 0
  let d := st.getD 3 0
  let e := st.getD 4 0
  let f := st.getD 5 0
  let g := st.getD 6 0
  let h := st.getD 7 0
  let ch := Nat.xor (Nat.land e f) (Nat.land (18446744073709551615 - e) g)
  let maj := Nat.xor (Nat.xor (Nat.land a b) (Nat.land a c)) (Nat.land b c)
  let t1 := w64 (h + bsig1 e + ch + kt + wt)
  let t2 := w64 (bsig0 a + maj)
  [w64 (t1 + t2), a, b, c, w64 (d + t1), e, f, g]

/-- Compress one 128-byte block into the running state. -/
def compress (st blk : List Nat) : List Nat :=
  let ws := sched ((List.range 16).map (wordAt blk))
  let fin := (ws.zip K).foldl (fun s p => round s p.1 p.2) st
  (List.range 8).map fun i => w64 (st.getD i 0 + fin.getD i 0)

/-- SHA-384 digest of a byte list: 48 bytes. -/
def digest (m : List Nat) : List Nat :=
  let fin := (chunks (pad m)).foldl compress IV
  (List.range 48).map fun j => fin.getD (j / 8) 0 / 256 ^ (7 - j % 8) % 256

end Sha384

/-! ## The PCR registry of `src/nsm-nitro-enclave-utils/src/pcr.rs`

`BTreeMap<PcrIndex, Pcr>` is modelled extensionally as a function
`PcrIndex → Option Pcr` (`insert` is pointwise update; iteration over a
`BTreeMap` visits its present keys in ascending order, which over this
six-element key type is iteration over `PCR_INDEXES` skipping absent keys). -/

/-- UTF-8 bytes of a string (`str::as_bytes`). -/
def utf8Bytes (s : String) : List Nat :=
  ((s.data.map String.utf8EncodeChar).foldr (· ++ ·) []).map UInt8.toNat

/-- The valid PCR indexes of the Nitro Secure Module
(`enum PcrIndex` in `pcr.rs`). -/
inductive PcrIndex
  | zero
  | one
  | two
  | three
  | four
  | eight
deriving DecidableEq

/-- `PCR_INDEXES` from `pcr.rs`: the six valid indexes, ascending. -/
def PCR_INDEXES : List PcrIndex :=
  [.zero, .one, .two, .three, .four, .eight]

/-- `From<PcrIndex> for usize` in `pcr.rs`. -/
def PcrIndex.toUsize : PcrIndex → Nat
  | .zero => 0
  | .one => 1
  | .two => 2
  | .three => 3
  | .four => 4
  | .eight => 8

/-- `TryFrom<usize> for PcrIndex` in `pcr.rs`; the error models
`PcrIndexError` (its `ErrorContext` message). -/
def PcrIndex.tryFrom : Nat → Except String PcrIndex
  | 0 => .ok .zero
  | 1 => .ok .one
  | 2 => .ok .two
  | 3 => .ok .three
  | 4 => .ok .four
  | 8 => .ok .eight
  | _ => .error "Invalid PCR index provided"

/-- `PCR_LENGTH` from `pcr.rs`: a SHA-384 digest is 48 bytes. -/
def PCR_LENGTH : Nat := 48

/-- `Pcr` from `pcr.rs`: a 48-byte digest (`[u8; 48]`, bytes as `Nat`). -/
abbrev Pcr := { l : List Nat // l.length = PCR_LENGTH }

/-- `TryFrom<Vec<u8>> for Pcr` in `pcr.rs`: length-checked construction. -/
def Pcr.tryFrom (v : List Nat) : Except String Pcr :=
  if h : v.length = PCR_LENGTH then .ok ⟨v, h⟩
  else .error "A PCR must have a length of 48."

/-- The all-zero `Pcr` (`[0; PCR_LENGTH].into()`). -/
def Pcr.zero : Pcr := ⟨List.replicate PCR_LENGTH 0, List.length_replicate 48 0⟩

/-- The `Pcr` produced by hashing a seed string with SHA-384
(body of the `Pcrs::seed` loop in `pcr.rs`). -/
def Pcr.ofSeed (s : String) : Pcr :=
  ⟨Sha384.digest (utf8Bytes s), by simp [Sha384.digest, PCR_LENGTH]⟩

/-- `Pcrs` from `pcr.rs`: a mapping from `PcrIndex` to `Pcr`. -/
structure Pcrs where
  map : PcrIndex → Option Pcr

/-- `Pcrs::set` from `pcr.rs`: `BTreeMap::insert`. -/
def Pcrs.set (p : Pcrs) (index : PcrIndex) (pcr : Pcr) : Pcrs :=
  ⟨fun j => if j = index then some pcr else p.map j⟩

/-- `Pcrs::get` from `pcr.rs`: `self.0.get(&index).expect(..)`.  The lookup is
returned as an `Option`; the source's `expect` panic corresponds to `none`,
which the invariant theorems prove unreachable. -/
def Pcrs.get (p : Pcrs) (index : PcrIndex) : Option Pcr :=
  p.map index

/-- Iterate over the entries of a `BTreeMap<PcrIndex, _>` (ascending order,
absent keys skipped), `set`-ting each present entry. Shared shape of the
loops in `Pcrs::from_fn`, `From<BTreeMap>` and `Pcrs::seed`. -/
def Pcrs.setEach (g : PcrIndex → Option Pcr) (l : List PcrIndex) (p : Pcrs) : Pcrs :=
  l.foldl
    (fun p i =>
      match g i with
      | some v => p.set i v
      | none => p)
    p

/-- `Pcrs::from_fn` from `pcr.rs`: start from an empty map and insert
`func(index)` for every valid index. -/
def Pcrs.from_fn (func : PcrIndex → Pcr) : Pcrs :=
  Pcrs.setEach (fun i => some (func i)) PCR_INDEXES ⟨fun _ => none⟩

/-- `Pcrs::zeros` from `pcr.rs`. -/
def Pcrs.zeros : Pcrs :=
  Pcrs.from_fn fun _ => Pcr.zero

/-- `Default for Pcrs` in `pcr.rs`: `Pcrs::zeros()`. -/
def Pcrs.defaultPcrs : Pcrs :=
  Pcrs.zeros

/-- `Pcrs::rand` from `pcr.rs`, with the `rand::thread_rng` alphanumeric
sampler modelled at its boundary as a supplied function producing each
index's 48 sampled bytes (already length-checked, as the source's
`Pcr::try_from(bytes).expect(..)` guarantees). -/
def Pcrs.rand (sample : PcrIndex → Pcr) : Pcrs :=
  Pcrs.from_fn sample

/-- `From<BTreeMap<PcrIndex, Pcr>> for Pcrs` in `pcr.rs`: start from `zeros`
and `set` every entry of the given map. -/
def Pcrs.fromMap (values : PcrIndex → Option Pcr) : Pcrs :=
  Pcrs.setEach values PCR_INDEXES Pcrs.zeros

/-- `Pcrs::seed` from `pcr.rs`: start from `zeros` and, for every entry of
the seed map, `set` that index to the SHA-384 digest of the seed string. -/
def Pcrs.seed (values : PcrIndex → Option String) : Pcrs :=
  Pcrs.setEach (fun i => (values i).map Pcr.ofSeed) PCR_INDEXES Pcrs.zeros

/-- `Into<BTreeMap<usize, ByteBuf>> for Pcrs` in `pcr.rs`: re-key each present
entry by its numeric index (ascending iteration over the six indexes). -/
def Pcrs.intoMap (p : Pcrs) : List (Nat × List Nat) :=
  PCR_INDEXES.filterMap fun i => (p.map i).map fun v => (i.toUsize, v.val)

/-- A `Pcrs` maps every valid index to a value (the `Pcrs` invariant). -/
def Pcrs.Complete (p : Pcrs) : Prop :=
  ∀ i : PcrIndex, (p.map i).isSome

/-! ## The usize-indexed registry of `src/nsm-nitro-enclave-utils/src/phony/pcrs.rs`

A superseded revision with `BTreeMap<usize, Pcr>` keys and fallible
`checked_get` / `checked_set` accessors.  The map is modelled as
`Nat → Option Pcr`; the `TryFrom<BTreeMap<usize, Vec<u8>>>` constructor
receives the input map as its entry list. -/

namespace Phony

/-- `PCR_INDEXES` from `phony/pcrs.rs`: the valid numeric indexes. -/
def PCR_INDEXES : List Nat := [0, 1, 2, 3, 4, 8]

/-- `TryFrom<Vec<u8>> for Pcr` in `phony/pcrs.rs`. -/
def pcrTryFrom (value : List Nat) : Except String Pcr :=
  if h : value.length = PCR_LENGTH then .ok ⟨value, h⟩
  else .error "PCR must be contain 48 bytes."

/-- `Pcrs` from `phony/pcrs.rs`: `BTreeMap<usize, Pcr>`. -/
structure Pcrs where
  map : Nat → Option Pcr

/-- Insert an entry (`BTreeMap::insert`). -/
def Pcrs.insert (p : Pcrs) (index : Nat) (pcr : Pcr) : Pcrs :=
  ⟨fun j => if j = index then some pcr else p.map j⟩

/-- `Pcrs::from_fn` from `phony/pcrs.rs`. -/
def Pcrs.from_fn (func : Nat → Pcr) : Pcrs :=
  PCR_INDEXES.foldl (fun p i => p.insert i (func i)) ⟨fun _ => none⟩

/-- `Pcrs::zeros` from `phony/pcrs.rs`. -/
def Pcrs.zeros : Pcrs :=
  Pcrs.from_fn fun _ => Pcr.zero

/-- `Default for Pcrs` in `phony/pcrs.rs`. -/
def Pcrs.defaultPcrs : Pcrs :=
  Pcrs.zeros

/-- `TryFrom<BTreeMap<usize, Vec<u8>>> for Pcrs` in `phony/pcrs.rs`: start
from an empty map, validate and insert every given entry; omitted valid
indexes are NOT filled in. -/
def Pcrs.tryFrom (values : List (Nat × List Nat)) : Except String Pcrs :=
  values.foldlM
    (fun (p : Pcrs) e =>
      if PCR_INDEXES.contains e.1 then
        match pcrTryFrom e.2 with
        | .ok pcr => .ok (p.insert e.1 pcr)
        | .error err => .error err
      else .error "Invalid PCR index provided")
    ⟨fun _ => none⟩

/-- `Pcrs::checked_get` from `phony/pcrs.rs`. -/
def Pcrs.checked_get (p : Pcrs) (index : Nat) : Except String (List Nat) :=
  if PCR_INDEXES.contains index then
    match p.map index with
    | some pcr => .ok pcr.val
    | none => .error "Failed to index PCR"
  else .error "PCR index out of range"

/-- `Pcrs::checked_set` from `phony/pcrs.rs`.  The returned `Pcrs` is the
mutated map; an error leaves the receiver untouched (no map is produced). -/
def Pcrs.checked_set (p : Pcrs) (index : Nat) (pcr : List Nat) : Except String Pcrs :=
  if PCR_INDEXES.contains index then
    match pcrTryFrom pcr with
    | .ok v => .ok (p.insert index v)
    | .error err => .error err
  else .error "PCR index out of range"

end Phony

/-! ## `Time` from `src/nsm-nitro-enclave-utils/src/time.rs`

The source wraps a boxed closure returning milliseconds since the Unix epoch;
it is modelled by the value that closure returns.  `std::time::Duration` is
modelled by its seconds/nanoseconds pair; no `Duration` is ever produced by
this module, because the `Deref` impl's body is `todo!()`. -/

/-- Model of `std::time::Duration` (seconds and nanoseconds). -/
structure Duration where
  secs : Nat
  nanos : Nat
deriving DecidableEq

/-- `Time` from `time.rs`: the wrapped closure is modelled by the
millisecond timestamp it returns. -/
structure Time where
  getter : Nat
deriving DecidableEq

/-- `Time::new` from `time.rs`. -/
def Time.new (getter : Nat) : Time := ⟨getter⟩

/-- `Time::time` from `time.rs`: returns the inner getter's value. -/
def Time.time (t : Time) : Nat := t.getter

/-- `impl Deref for Time` in `time.rs`: the body is `todo!()`, i.e. an
unconditional panic, modelled as an error result. -/
def Time.deref (_ : Time) : Except String Duration :=
  .error "not yet implemented"

/-! ## Certificates and the `webpki` boundary model

X.509 certificates travel through the source as DER byte strings and are
interpreted only through external parsers (`webpki`, `x509-cert`).  They are
modelled by the attributes those interpreters extract — subject public key,
key type, the key that actually signed the certificate (the symbolic stand-in
for the certificate signature), CA flag, serial and validity window — together
with an injective DER encoding and matching parser.  `webpki`'s
`EndEntityCert::verify_for_usage` is modelled as an executable walk of the
candidate chain checking CA-ness, validity at the supplied time and the
symbolic certificate signatures, plus the revocation checking configured by
its `RevocationOptions` argument. -/

/-- The key type recorded in a certificate's SubjectPublicKeyInfo. -/
inductive KeyType
  | ec
  | other
deriving DecidableEq

/-- Boundary model of a parsed X.509 certificate. -/
structure Cert where
  serial : Nat
  subjectKey : Nat
  keyType : KeyType
  issuerKey : Nat
  isCA : Bool
  notBefore : Nat
  notAfter : Nat
deriving DecidableEq

/-- Tag for a `KeyType` in the DER model. -/
def KeyType.tag : KeyType → Nat
  | .ec => 0
  | .other => 1

/-- The injective DER encoding of the certificate model. -/
def Cert.toDer (c : Cert) : List Nat :=
  [c.serial, c.subjectKey, c.keyType.tag, if c.isCA then 1 else 0,
    c.issuerKey, c.notBefore, c.notAfter]

/-- Parse the DER model of a certificate. -/
def Cert.fromDer : List Nat → Option Cert
  | [serial, subjectKey, kt, ca, issuerKey, notBefore, notAfter] =>
    match kt, ca with
    | 0, 0 => some ⟨serial, subjectKey, .ec, issuerKey, false, notBefore, notAfter⟩
    | 0, 1 => some ⟨serial, subjectKey, .ec, issuerKey, true, notBefore, notAfter⟩
    | 1, 0 => some ⟨serial, subjectKey, .other, issuerKey, false, notBefore, notAfter⟩
    | 1, 1 => some ⟨serial, subjectKey, .other, issuerKey, true, notBefore, notAfter⟩
    | _, _ => none
  | _ => none

/-- A certificate's validity window contains the given time. -/
def Cert.validAt (c : Cert) (t : Nat) : Bool :=
  decide (c.notBefore ≤ t) && decide (t ≤ c.notAfter)

/-- `webpki::CertRevocationList`, modelled by the attributes the checker
reads: the issuing key, the expiry (`next_update`) and the revoked serials. -/
structure CertRevocationList where
  issuerKey : Nat
  nextUpdate : Nat
  revoked : List Nat
deriving DecidableEq

/-- `webpki::RevocationCheckDepth`. -/
inductive RevocationCheckDepth
  | endEntity
  | chain
deriving DecidableEq

/-- `webpki::UnknownStatusPolicy`. -/
inductive UnknownStatusPolicy
  | allow
  | deny
deriving DecidableEq

/-- `webpki::ExpirationPolicy` for CRLs. -/
inductive ExpirationPolicy
  | ignore
  | enforce
deriving DecidableEq

/-- `webpki::RevocationOptions`. -/
structure RevocationOptions where
  crls : List CertRevocationList
  depth : RevocationCheckDepth
  statusPolicy : UnknownStatusPolicy
  expirationPolicy : ExpirationPolicy
deriving DecidableEq

/-- `webpki::RevocationOptionsBuilder` (same fields; `build` converts). -/
structure RevocationOptionsBuilder where
  crls : List CertRevocationList
  depth : RevocationCheckDepth
  statusPolicy : UnknownStatusPolicy
  expirationPolicy : ExpirationPolicy

/-- `RevocationOptionsBuilder::new`: fails on an empty CRL list; the
defaults are chain depth, allow-unknown, ignore-expiration. -/
def RevocationOptionsBuilder.new (crls : List CertRevocationList) :
    Except String RevocationOptionsBuilder :=
  match crls with
  | [] => .error "at least one CRL is required"
  | _ => .ok ⟨crls, .chain, .allow, .ignore⟩

/-- `RevocationOptionsBuilder::with_depth`. -/
def RevocationOptionsBuilder.with_depth (b : RevocationOptionsBuilder)
    (depth : RevocationCheckDepth) : RevocationOptionsBuilder :=
  { b with depth := depth }

/-- `RevocationOptionsBuilder::with_status_policy`. -/
def RevocationOptionsBuilder.with_status_policy (b : RevocationOptionsBuilder)
    (policy : UnknownStatusPolicy) : RevocationOptionsBuilder :=
  { b with statusPolicy := policy }

/-- `RevocationOptionsBuilder::with_expiration_policy`. -/
def RevocationOptionsBuilder.with_expiration_policy (b : RevocationOptionsBuilder)
    (policy : ExpirationPolicy) : RevocationOptionsBuilder :=
  { b with expirationPolicy := policy }

/-- `RevocationOptionsBuilder::build`. -/
def RevocationOptionsBuilder.build (b : RevocationOptionsBuilder) : RevocationOptions :=
  ⟨b.crls, b.depth, b.statusPolicy, b.expirationPolicy⟩

/-- Revocation status of one certificate against the configured CRLs:
a covering CRL (matching issuer) must exist unless unknown status is
allowed, must be unexpired when expiration is enforced, and must not list
the certificate's serial. -/
def revocationStatusOk (o : RevocationOptions) (t : Nat) (c : Cert) : Bool :=
  match o.crls.find? fun crl => crl.issuerKey == c.issuerKey with
  | some crl =>
    (match o.expirationPolicy with
      | .enforce => decide (t ≤ crl.nextUpdate)
      | .ignore => true)
    && !(crl.revoked.contains c.serial)
  | none =>
    match o.statusPolicy with
    | .allow => true
    | .deny => false

/-- Revocation check of the configured portion of the chain (`end_cert` is
the head of `chain`; `chain`'s tail is the intermediates on the path). -/
def revocationOk (rev : Option RevocationOptions) (chain : List Cert) (t : Nat) : Bool :=
  match rev with
  | none => true
  | some o =>
    let targets := match o.depth with
      | .chain => chain
      | .endEntity => chain.take 1
    targets.all (revocationStatusOk o t)

/-- Path building: `c` chains to the trust anchor `root` through a subset of
`ints`, every certificate on the path being a CA valid at `t` that signed its
child (symbolically: `issuerKey` equals the parent's `subjectKey`).  Also
returns the path's intermediates, end-entity first. -/
def buildPath (fuel : Nat) (ints : List Cert) (root : Cert) (c : Cert) (t : Nat) :
    Option (List Cert) :=
  match fuel with
  | 0 => none
  | fuel + 1 =>
    if c.issuerKey == root.subjectKey && root.isCA && root.validAt t then
      some []
    else
      ints.firstM fun i =>
        if i.isCA && i.validAt t && (c.issuerKey == i.subjectKey) then
          (buildPath fuel ints root i t).map fun p => i :: p
        else none

/-- `webpki`'s `EndEntityCert::verify_for_usage` boundary model: the end
certificate must be valid at `t`, chain to the anchor, and pass the
configured revocation checking over the validated path. -/
def verifyForUsage (endCert : Cert) (root : Cert) (ints : List Cert) (t : Nat)
    (rev : Option RevocationOptions) : Bool :=
  endCert.validAt t &&
    match buildPath (ints.length + 1) ints root endCert t with
    | some path => revocationOk rev (endCert :: path) t
    | none => false

/-! ## ECDSA P-384 and COSE_Sign1

`p384::ecdsa` is modelled symbolically at its boundary: a signing key is a
scalar identified by a `Nat`, its verifying key is the public counterpart
(an injective function of the scalar), a signature records the verifying key
and the exact message signed, and verification succeeds precisely on that
pair.  `coset`'s `CoseSign1` is modelled structurally with an injective
serialization (`to_vec` / `from_slice`) and the `Sig_structure`
("to-be-signed") bytes used by both `create_signature` and
`verify_signature`. -/

/-- `p384::ecdsa::SigningKey`, symbolically: the private scalar. -/
structure SigningKey where
  scalar : Nat
deriving DecidableEq

/-- The verifying (public) key of a signing key. -/
def SigningKey.pub (k : SigningKey) : Nat := k.scalar

/-- A symbolic ECDSA P-384 signature: the signer's verifying key and the
signed message. -/
structure Sig where
  keyId : Nat
  msg : List Nat
deriving DecidableEq

/-- `Signer::sign` for ECDSA P-384 (infallible for a valid key). -/
def ecdsaSign (k : SigningKey) (msg : List Nat) : Sig :=
  ⟨k.pub, msg⟩

/-- `Verifier::verify` for ECDSA P-384: the signature must have been produced
over exactly `msg` by the key whose verifying key is `vk`. -/
def ecdsaVerify (vk : Nat) (msg : List Nat) (s : Sig) : Bool :=
  s.keyId == vk && s.msg == msg

/-- A COSE protected header; `coset`'s `HeaderBuilder::algorithm` sets the
algorithm entry. -/
structure Header where
  alg : Option Nat
deriving DecidableEq

/-- The IANA COSE algorithm code for ES384 (modelled by its magnitude). -/
def ES384 : Nat := 35

/-- A `coset::CoseSign1` structure. -/
structure CoseSign1 where
  protectedHeader : Header
  payload : Option (List Nat)
  signature : Sig
deriving DecidableEq

/-- Encode a header. -/
def Header.enc (h : Header) : List Nat :=
  Codec.encOpt Codec.encNat h.alg

/-- Decode a header. -/
def Header.dec (l : List Nat) : Option (Header × List Nat) :=
  (Codec.decOpt Codec.decNat l).map fun p => (⟨p.1⟩, p.2)

/-- Encode a symbolic signature. -/
def Sig.enc (s : Sig) : List Nat :=
  Codec.encNat s.keyId ++ Codec.encBytes s.msg

/-- Decode a symbolic signature. -/
def Sig.dec (l : List Nat) : Option (Sig × List Nat) :=
  match Codec.decNat l with
  | none => none
  | some (k, rest) => (Codec.decBytes rest).map fun p => (⟨k, p.1⟩, p.2)

/-- `coset`'s `CoseSign1` serialization (`CborSerializable::to_vec`). -/
def CoseSign1.to_vec (c : CoseSign1) : List Nat :=
  c.protectedHeader.enc ++ Codec.encOpt Codec.encBytes c.payload ++ c.signature.enc

/-- `coset`'s `CoseSign1::from_slice`: parse and require the input to be
exactly one serialized structure. -/
def CoseSign1.from_slice (l : List Nat) : Option CoseSign1 :=
  match Header.dec l with
  | none => none
  | some (h, rest) =>
    match Codec.decOpt Codec.decBytes rest with
    | none => none
    | some (payload, rest2) =>
      match Sig.dec rest2 with
      | some (sig, []) => some ⟨h, payload, sig⟩
      | _ => none

/-- `coset`'s `Sig_structure` ("to-be-signed") bytes for a `CoseSign1`:
covers the protected header, the external AAD and the payload. -/
def sigStructure (h : Header) (aad : List Nat) (payload : List Nat) : List Nat :=
  h.enc ++ Codec.encBytes aad ++ Codec.encBytes payload

/-- `coset`'s `CoseSign1::verify_signature` with external AAD: recompute the
to-be-signed bytes and run the supplied ECDSA verifier. -/
def CoseSign1.verify_signature (c : CoseSign1) (aad : List Nat) (vk : Nat) : Bool :=
  ecdsaVerify vk (sigStructure c.protectedHeader aad (c.payload.getD [])) c.signature

/-! ## `AttestationDoc` and the signer of `src/nsm-nitro-enclave-utils/src/sign.rs`

`aws_nitro_enclaves_nsm_api::api::AttestationDoc` with its CBOR serialization
(`to_binary` / `from_binary`) modelled through the token codec. -/

/-- `aws_nitro_enclaves_nsm_api::api::Digest`. -/
inductive Digest
  | SHA256
  | SHA384
  | SHA512
deriving DecidableEq

/-- Tag of a digest algorithm in the CBOR model. -/
def Digest.tag : Digest → Nat
  | .SHA256 => 0
  | .SHA384 => 1
  | .SHA512 => 2

/-- Decode a digest algorithm tag. -/
def Digest.dec : List Nat → Option (Digest × List Nat)
  | 0 :: rest => some (.SHA256, rest)
  | 1 :: rest => some (.SHA384, rest)
  | 2 :: rest => some (.SHA512, rest)
  | _ => none

/-- `aws_nitro_enclaves_nsm_api::api::AttestationDoc`.  The `pcrs` field is
the content of the `BTreeMap<usize, ByteBuf>` as its (index, bytes) entry
list in map order. -/
structure AttestationDoc where
  module_id : String
  digest : Digest
  timestamp : Nat
  pcrs : List (Nat × List Nat)
  certificate : List Nat
  cabundle : List (List Nat)
  user_data : Option (List Nat)
  nonce : Option (List Nat)
  public_key : Option (List Nat)
deriving DecidableEq

/-- `AttestationDoc::to_binary`: the document's CBOR serialization, modelled
through the token codec (fields in declaration order). -/
def AttestationDoc.to_binary (d : AttestationDoc) : List Nat :=
  Codec.encString d.module_id ++ ([d.digest.tag] ++ (Codec.encNat d.timestamp
    ++ (Codec.encList Codec.encEntry d.pcrs ++ (Codec.encBytes d.certificate
    ++ (Codec.encList Codec.encBytes d.cabundle ++ (Codec.encOpt Codec.encBytes d.user_data
    ++ (Codec.encOpt Codec.encBytes d.nonce ++ Codec.encOpt Codec.encBytes d.public_key)))))))

/-- `AttestationDoc::from_binary`: parse a serialized document, requiring the
input to be exactly one serialized document. -/
def AttestationDoc.from_binary (l : List Nat) : Option AttestationDoc :=
  match Codec.decString l with
  | none => none
  | some (module_id, r1) =>
    match Digest.dec r1 with
    | none => none
    | some (digest, r2) =>
      match Codec.decNat r2 with
      | none => none
      | some (timestamp, r3) =>
        match Codec.decList Codec.decEntry r3 with
        | none => none
        | some (pcrs, r4) =>
          match Codec.decBytes r4 with
          | none => none
          | some (certificate, r5) =>
            match Codec.decList Codec.decBytes r5 with
            | none => none
            | some (cabundle, r6) =>
              match Codec.decOpt Codec.decBytes r6 with
              | none => none
              | some (user_data, r7) =>
                match Codec.decOpt Codec.decBytes r7 with
                | none => none
                | some (nonce, r8) =>
                  match Codec.decOpt Codec.decBytes r8 with
                  | some (public_key, []) =>
                    some ⟨module_id, digest, timestamp, pcrs, certificate,
                      cabundle, user_data, nonce, public_key⟩
                  | _ => none

/-- The protected header built by `AttestationDoc::sign`
(`HeaderBuilder::new().algorithm(Algorithm::ES384).build()`). -/
def signHeaders : Header := ⟨some ES384⟩

/-- `AttestationDocSignerExt::sign` from `sign.rs`: CBOR-serialize the
document, wrap it in a `CoseSign1` with an ES384 protected header, sign the
to-be-signed bytes (empty AAD) with the ECDSA key, and serialize.  The final
`to_vec` is the only fallible step in the source; the modelled encoder is
total, so the result is always `ok`. -/
def AttestationDoc.sign (d : AttestationDoc) (signing_key : SigningKey) :
    Except String (List Nat) :=
  let payload := d.to_binary
  let cose : CoseSign1 :=
    { protectedHeader := signHeaders
      payload := some payload
      signature := ecdsaSign signing_key (sigStructure signHeaders [] payload) }
  .ok cose.to_vec

/-! ## The verifier of `src/nsm-nitro-enclave-utils/src/verify/` -/

/-- `VerifierErrorKind` from `verify/mod.rs`.  (`VerifierError` also carries a
backtrace and a source error, which have no behavioural content and are not
modelled; the verifier is modelled as returning the kind.) -/
inductive VerifierErrorKind
  | invalidEndCertificate
  | invalidRootCertificate
  | invalidCose
  | invalidAttestationDoc
  | verification
deriving DecidableEq

/-- `ChainVerifier` from `verify/cert.rs`: the parsed trust anchor, the raw
intermediate certificates and the parsed end-entity certificate. -/
structure ChainVerifier where
  root_cert : Cert
  int_certs : List (List Nat)
  end_cert : Cert

/-- `ChainVerifier::new` from `verify/cert.rs`: parse the end certificate
(`EndEntityCert::try_from`), wrap the intermediates unparsed, and parse the
trust anchor (`anchor_from_trusted_cert`). -/
def ChainVerifier.new (root_cert : List Nat) (int_certs : List (List Nat))
    (end_cert : List Nat) : Except VerifierErrorKind ChainVerifier :=
  match Cert.fromDer end_cert with
  | none => .error .invalidEndCertificate
  | some endc =>
    match Cert.fromDer root_cert with
    | none => .error .invalidRootCertificate
    | some root => .ok ⟨root, int_certs, endc⟩

/-- `ChainVerifier::verify` from `verify/cert.rs`: `verify_for_usage` for
ECDSA-P384-SHA384 server-auth at the supplied millisecond time, with CRL
checking disabled (`None`).  Intermediates that fail to parse cannot appear
on a path. -/
def ChainVerifier.verify (cv : ChainVerifier) (time : Nat) :
    Except VerifierErrorKind Unit :=
  if verifyForUsage cv.end_cert cv.root_cert (cv.int_certs.filterMap Cert.fromDer)
      time none
  then .ok ()
  else .error .verification

/-- `AttestationDocVerifierExt::from_cose` from `verify/mod.rs`: the four
verification steps — COSE decode, document decode, certificate-chain
verification, COSE signature verification against the end certificate's
EC public key. -/
def AttestationDoc.from_cose (cose_attestation_doc : List Nat) (root_cert : List Nat)
    (time : Nat) : Except VerifierErrorKind AttestationDoc :=
  match CoseSign1.from_slice cose_attestation_doc with
  | none => .error .invalidCose
  | some cose =>
    match cose.payload with
    | none => .error .invalidCose
    | some payload =>
      match AttestationDoc.from_binary payload with
      | none => .error .invalidAttestationDoc
      | some attestation_doc =>
        match ChainVerifier.new root_cert attestation_doc.cabundle
            attestation_doc.certificate with
        | .error e => .error e
        | .ok cv =>
          match cv.verify time with
          | .error e => .error e
          | .ok () =>
            match Cert.fromDer attestation_doc.certificate with
            | none => .error .invalidAttestationDoc
            | some doc_cert =>
              if doc_cert.keyType = KeyType.ec then
                if cose.verify_signature [] doc_cert.subjectKey then
                  .ok attestation_doc
                else .error .verification
              else .error .invalidAttestationDoc

/-! ## The revocation-aware chain verifier of `src/src/cert.rs`

A superseded revision whose `verify` takes an optional CRL list.  Its
`verify_for_usage` result is `unwrap`-ed, so a failed chain verification is
a panic, modelled as `none`; `some (ok ())` is success and `some (error _)`
is the returned builder error. -/

namespace SrcCert

/-- `ChainVerifier` from `src/src/cert.rs`. -/
structure ChainVerifier where
  trust_anchor : Cert
  int_certs : List (List Nat)
  end_cert : Cert

/-- `ChainVerifier::new` from `src/src/cert.rs`. -/
def ChainVerifier.new (trust_anchor : List Nat) (int_certs : List (List Nat))
    (end_cert : List Nat) : Except String ChainVerifier :=
  match Cert.fromDer end_cert with
  | none => .error "Failed to parse EndEntityCert"
  | some endc =>
    match Cert.fromDer trust_anchor with
    | none => .error "Failed to parse TrustAnchor"
    | some root => .ok ⟨root, int_certs, endc⟩

/-- `ChainVerifier::verify` from `src/src/cert.rs`: when a CRL list is
supplied, build `RevocationOptions` enforcing CRL expiration, checking the
whole chain and denying unknown status, then run `verify_for_usage` with
them (its result is `unwrap`-ed: failure panics, modelled as `none`); when
`None` is supplied, run `verify_for_usage` without revocation checking. -/
def ChainVerifier.verify (cv : ChainVerifier) (time : Nat)
    (crls : Option (List CertRevocationList)) : Option (Except String Unit) :=
  match crls with
  | some crls =>
    match RevocationOptionsBuilder.new crls with
    | .error _ => some (.error "Failed to create revocation builder")
    | .ok b =>
      let opts := (((b.with_expiration_policy .enforce).with_depth .chain)
        |>.with_status_policy .deny).build
      if verifyForUsage cv.end_cert cv.trust_anchor
          (cv.int_certs.filterMap Cert.fromDer) time (some opts)
      then some (.ok ())
      else none
  | none =>
    if verifyForUsage cv.end_cert cv.trust_anchor
        (cv.int_certs.filterMap Cert.fromDer) time none
    then some (.ok ())
    else none

end SrcCert

/-! ## The NSM request/response API and the mock driver

`aws_nitro_enclaves_nsm_api::api::{Request, Response, ErrorCode}` modelled at
their boundary (the closed variant sets), and `DevNitro` from
`src/nsm-nitro-enclave-utils/src/driver/dev/driver.rs`.  The only panic
reachable in `DevNitro` is the `expect` inside `Pcrs::get`, so
`process_request` returns `Option Response` with `none` for that panic. -/

/-- `aws_nitro_enclaves_nsm_api::api::ErrorCode`. -/
inductive ErrorCode
  | success
  | invalidArgument
  | invalidIndex
  | invalidResponse
  | readOnlyIndex
  | invalidOperation
  | bufferTooSmall
  | inputTooLarge
  | internalError
deriving DecidableEq

/-- `aws_nitro_enclaves_nsm_api::api::Request` (the closed variant set). -/
inductive Request
  | describePCR (index : Nat)
  | extendPCR (index : Nat) (data : List Nat)
  | lockPCR (index : Nat)
  | lockPCRs (range : Nat)
  | attestation (user_data : Option (List Nat)) (nonce : Option (List Nat))
      (public_key : Option (List Nat))
  | describeNSM
  | getRandom
deriving DecidableEq

/-- `aws_nitro_enclaves_nsm_api::api::Response` (the variants the driver can
produce; `DescribeNSM`'s payload fields are unused by this repository and
collapsed). -/
inductive Response
  | describePCR (lock : Bool) (data : List Nat)
  | extendPCR (data : List Nat)
  | lockPCR
  | lockPCRs
  | attestation (document : List Nat)
  | describeNSM
  | getRandom (random : List Nat)
  | error (code : ErrorCode)
deriving DecidableEq

/-- `DevNitro` from `driver/dev/driver.rs`. -/
structure DevNitro where
  ca_bundle : List (List Nat)
  signing_key : SigningKey
  end_cert : List Nat
  pcrs : Pcrs
  get_timestamp : Time

/-- `DevNitro::describe_pcr`: convert the index, look up the PCR (the
`Pcrs::get` `expect` panic is `none`), and answer with `lock: true`. -/
def DevNitro.describe_pcr (d : DevNitro) (index : Nat) : Option Response :=
  match PcrIndex.tryFrom index with
  | .ok index =>
    (d.pcrs.get index).map fun pcr => Response.describePCR true pcr.val
  | .error _ => some (.error .invalidIndex)

/-- The document built by `DevNitro::attestation` (the `AttestationDoc`
literal in its body). -/
def DevNitro.attestationDoc (d : DevNitro) (user_data : Option (List Nat))
    (nonce : Option (List Nat)) (public_key : Option (List Nat)) : AttestationDoc :=
  { module_id := "unsecure-development-attestation-document"
    digest := .SHA384
    timestamp := d.get_timestamp.time
    pcrs := d.pcrs.intoMap
    certificate := d.end_cert
    cabundle := d.ca_bundle
    user_data := user_data
    nonce := nonce
    public_key := public_key }

/-- `DevNitro::attestation`: build the development attestation document,
sign it, and answer with the signed bytes (or `InternalError` if signing
fails). -/
def DevNitro.attestation (d : DevNitro) (user_data : Option (List Nat))
    (nonce : Option (List Nat)) (public_key : Option (List Nat)) : Response :=
  match (d.attestationDoc user_data nonce public_key).sign d.signing_key with
  | .ok document => .attestation document
  | .error _ => .error .internalError

/-- `Driver::process_request` for `DevNitro` from `driver/dev/driver.rs`. -/
def DevNitro.process_request (d : DevNitro) (request : Request) : Option Response :=
  match request with
  | .describePCR index => d.describe_pcr index
  | .attestation user_data nonce public_key =>
    some (d.attestation user_data nonce public_key)
  | _ => some (.error .invalidOperation)

/-- Decode the attestation document embedded in a signed COSE blob (the
payload of the serialized `CoseSign1`). -/
def embeddedDoc (blob : List Nat) : Option AttestationDoc :=
  match CoseSign1.from_slice blob with
  | none => none
  | some cose =>
    match cose.payload with
    | none => none
    | some payload => AttestationDoc.from_binary payload

/-- Flip one token of the COSE payload of a serialized `CoseSign1` blob
(the byte-flip of the tampering property, applied to the payload region). -/
def tamperPayload (blob : List Nat) (i : Nat) (b : Nat) : List Nat :=
  match CoseSign1.from_slice blob with
  | some c => CoseSign1.to_vec { c with payload := some ((c.payload.getD []).set i b) }
  | none => []

/-! ## Concrete fixtures

A small concrete certificate chain, key and document used by the witness
theorems. -/

/-- Witness root certificate (self-signed CA). -/
def rootCert : Cert :=
  ⟨1, 10, .ec, 10, true, 0, 1000000⟩

/-- Witness intermediate certificate (CA signed by the root key). -/
def intCert : Cert :=
  ⟨2, 20, .ec, 10, true, 0, 1000000⟩

/-- Witness end-entity certificate (signed by the intermediate key). -/
def endCert : Cert :=
  ⟨3, 30, .ec, 20, false, 0, 1000000⟩

/-- Witness end-entity signing key (its public key is `endCert`'s subject
key). -/
def endKey : SigningKey := ⟨30⟩

/-- Witness attestation document carrying the chain. -/
def sampleDoc : AttestationDoc :=
  { module_id := "m"
    digest := .SHA384
    timestamp := 77
    pcrs := [(0, List.replicate 48 0)]
    certificate := endCert.toDer
    cabundle := [intCert.toDer]
    user_data := none
    nonce := some [1, 2, 3]
    public_key := none }

/-- Witness verification time (inside the chain's validity window). -/
def sampleTime : Nat := 500

/-- The signed COSE blob over `sampleDoc` and `endKey`. -/
def sampleBlob : List Nat :=
  (AttestationDoc.sign sampleDoc endKey).toOption.getD []

/-- Witness mock driver built over `endKey`, `endCert` and zeroed PCRs. -/
def sampleDriver : DevNitro :=
  { ca_bundle := [intCert.toDer]
    signing_key := endKey
    end_cert := endCert.toDer
    pcrs := Pcrs.zeros
    get_timestamp := Time.new 77 }

/-- Witness chain verifier for the `src/src/cert.rs` revision. -/
def sampleSrcVerifier : SrcCert.ChainVerifier :=
  ⟨rootCert, [intCert.toDer], endCert⟩

/-- A witness CRL list whose single CRL covers no certificate of the sample
chain (its issuer key matches nobody). -/
def sampleCrls : List CertRevocationList :=
  [⟨999, 1000000, []⟩]

/-! # Theorems

First the round-trip and helper lemmas for the codec, the digests, the
certificate model and the PCR folds; then one theorem per specification
claim (with witnesses and counterexamples). -/

theorem Codec.decBytes_encBytes (bs r : List Nat) :
    decBytes (encBytes bs ++ r) = some (bs, r) := by
  simp only [encBytes, decBytes, List.cons_append]
  rw [if_pos (by simp)]
  rw [List.take_left, List.drop_left]

theorem Codec.decNat_encNat (n : Nat) (r : List Nat) :
    decNat (encNat n ++ r) = some (n, r) := rfl

theorem Codec.decOpt_encOpt (f : α → List Nat) (d : List Nat → Option (α × List Nat))
    (hd : ∀ x r, d (f x ++ r) = some (x, r)) (o : Option α) (r : List Nat) :
    decOpt d (encOpt f o ++ r) = some (o, r) := by
  cases o with
  | none => rfl
  | some x => simp [encOpt, decOpt, hd]

theorem Codec.decCount_enc (f : α → List Nat) (d : List Nat → Option (α × List Nat))
    (hd : ∀ x r, d (f x ++ r) = some (x, r)) (xs : List α) (r : List Nat) :
    decCount d xs.length ((xs.map f).foldr (· ++ ·) [] ++ r) = some (xs, r) := by
  induction xs with
  | nil => rfl
  | cons x xs ih =>
    simp only [List.map_cons, List.foldr_cons, List.length_cons, List.append_assoc]
    simp [decCount, hd, ih]

theorem Codec.decList_encList (f : α → List Nat) (d : List Nat → Option (α × List Nat))
    (hd : ∀ x r, d (f x ++ r) = some (x, r)) (xs : List α) (r : List Nat) :
    decList d (encList f xs ++ r) = some (xs, r) := by
  simp only [encList, decList, List.cons_append]
  exact decCount_enc f d hd xs r

theorem Codec.decString_encString (s : String) (r : List Nat) :
    decString (encString s ++ r) = some (s, r) := by
  have h : (s.data.map Char.toNat).map Char.ofNat = s.data := by
    rw [List.map_map]
    have h2 : (Char.ofNat ∘ Char.toNat) = id := by
      funext c; exact Char.ofNat_toNat c
    rw [h2, List.map_id]
  simp [decString, encString, decBytes_encBytes, h]

theorem Codec.decEntry_encEntry (e : Nat × List Nat) (r : List Nat) :
    decEntry (encEntry e ++ r) = some (e, r) := by
  simp [encEntry, decEntry, encNat, decNat, decBytes_encBytes]

theorem Sha384.digest_length (m : List Nat) : (digest m).length = 48 := by
  simp [digest]

theorem Sha384.digest_lt (m : List Nat) (j : Nat) : (digest m).getD j 0 < 256 := by
  unfold digest
  rcases Nat.lt_or_ge j 48 with h | h
  · rw [List.getD_eq_getElem _ _ (by simpa using h)]
    simp only [List.getElem_map, List.getElem_range]
    exact Nat.mod_lt _ (by norm_num)
  · rw [List.getD_eq_default _ _ (by simpa using h)]
    norm_num

theorem Cert.fromDer_toDer (c : Cert) : Cert.fromDer c.toDer = some c := by
  rcases c with ⟨s, k, kt, ik, ca, nb, na⟩
  cases kt <;> cases ca <;> rfl

theorem filterMap_fromDer_map_toDer (l : List Cert) :
    (l.map Cert.toDer).filterMap Cert.fromDer = l := by
  induction l with
  | nil => rfl
  | cons c l ih =>
    simp [List.filterMap_cons, Cert.fromDer_toDer, ih]

theorem Header.dec_enc_header (h : Header) (r : List Nat) :
    Header.dec (h.enc ++ r) = some (h, r) := by
  simp [Header.dec, Header.enc,
    Codec.decOpt_encOpt Codec.encNat Codec.decNat Codec.decNat_encNat]

theorem Sig.dec_enc_sig (s : Sig) (r : List Nat) :
    Sig.dec (s.enc ++ r) = some (s, r) := by
  simp [Sig.dec, Sig.enc, Codec.encNat, Codec.decNat, Codec.decBytes_encBytes]

theorem CoseSign1.from_slice_to_vec (c : CoseSign1) :
    CoseSign1.from_slice c.to_vec = some c := by
  have h : c.to_vec = c.protectedHeader.enc
      ++ (Codec.encOpt Codec.encBytes c.payload ++ (c.signature.enc ++ [])) := by
    simp [CoseSign1.to_vec]
  rw [CoseSign1.from_slice, h]
  simp only [Header.dec_enc_header,
    Codec.decOpt_encOpt Codec.encBytes Codec.decBytes Codec.decBytes_encBytes,
    Sig.dec_enc_sig]

theorem Digest.dec_tag (d : Digest) (r : List Nat) :
    Digest.dec (d.tag :: r) = some (d, r) := by
  cases d <;> rfl

theorem AttestationDoc.from_binary_to_binary (d : AttestationDoc) :
    AttestationDoc.from_binary d.to_binary = some d := by
  have hb := Codec.decBytes_encBytes
  have h : d.to_binary = Codec.encString d.module_id ++ ([d.digest.tag]
      ++ (Codec.encNat d.timestamp ++ (Codec.encList Codec.encEntry d.pcrs
      ++ (Codec.encBytes d.certificate ++ (Codec.encList Codec.encBytes d.cabundle
      ++ (Codec.encOpt Codec.encBytes d.user_data ++ (Codec.encOpt Codec.encBytes d.nonce
      ++ (Codec.encOpt Codec.encBytes d.public_key ++ [])))))))) := by
    simp [AttestationDoc.to_binary]
  rw [AttestationDoc.from_binary, h, Codec.decString_encString]
  have htag : [d.digest.tag] ++ (Codec.encNat d.timestamp
      ++ (Codec.encList Codec.encEntry d.pcrs ++ (Codec.encBytes d.certificate
      ++ (Codec.encList Codec.encBytes d.cabundle
      ++ (Codec.encOpt Codec.encBytes d.user_data ++ (Codec.encOpt Codec.encBytes d.nonce
      ++ (Codec.encOpt Codec.encBytes d.public_key ++ [])))))))
      = d.digest.tag :: (Codec.encNat d.timestamp
      ++ (Codec.encList Codec.encEntry d.pcrs ++ (Codec.encBytes d.certificate
      ++ (Codec.encList Codec.encBytes d.cabundle
      ++ (Codec.encOpt Codec.encBytes d.user_data ++ (Codec.encOpt Codec.encBytes d.nonce
      ++ (Codec.encOpt Codec.encBytes d.public_key ++ []))))))) := rfl
  rw [htag]
  simp only [Codec.decString_encString, Digest.dec_tag, Codec.decNat_encNat,
    Codec.decList_encList Codec.encEntry Codec.decEntry Codec.decEntry_encEntry,
    hb,
    Codec.decList_encList Codec.encBytes Codec.decBytes hb,
    Codec.decOpt_encOpt Codec.encBytes Codec.decBytes hb]

theorem sigStructure_payload_inj (h : Header) (aad p1 p2 : List Nat)
    (heq : sigStructure h aad p1 = sigStructure h aad p2) : p1 = p2 := by
  unfold sigStructure at heq
  have h1 := List.append_cancel_left heq
  exact (by simpa [Codec.encBytes] using h1 :
    p1.length = p2.length ∧ p1 = p2).2

theorem Pcrs.set_map (p : Pcrs) (j : PcrIndex) (v : Pcr) (i : PcrIndex) :
    (p.set j v).map i = if i = j then some v else p.map i := rfl

theorem Pcrs.setEach_cons (g : PcrIndex → Option Pcr) (j : PcrIndex)
    (l : List PcrIndex) (p : Pcrs) :
    Pcrs.setEach g (j :: l) p
      = Pcrs.setEach g l (match g j with | some v => p.set j v | none => p) := rfl

theorem Pcrs.setEach_map_notMem (g : PcrIndex → Option Pcr) (l : List PcrIndex)
    (p : Pcrs) (i : PcrIndex) (hi : i ∉ l) :
    (Pcrs.setEach g l p).map i = p.map i := by
  induction l generalizing p with
  | nil => rfl
  | cons j l ih =>
    rw [Pcrs.setEach_cons, ih _ (fun h => hi (List.mem_cons_of_mem j h))]
    have hij : i ≠ j := fun h => hi (h ▸ List.mem_cons_self j l)
    cases g j with
    | none => rfl
    | some v => simp [Pcrs.set_map, hij]

theorem Pcrs.setEach_map_mem (g : PcrIndex → Option Pcr) (l : List PcrIndex)
    (p : Pcrs) (i : PcrIndex) (hnd : l.Nodup) (hi : i ∈ l) :
    (Pcrs.setEach g l p).map i
      = match g i with | some v => some v | none => p.map i := by
  induction l generalizing p with
  | nil => cases hi
  | cons j l ih =>
    rcases List.mem_cons.mp hi with heq | hmem
    · subst heq
      rw [Pcrs.setEach_cons,
        Pcrs.setEach_map_notMem g l _ i (List.Nodup.not_mem hnd)]
      cases g i with
      | none => rfl
      | some v => simp [Pcrs.set_map]
    · have hij : i ≠ j := by
        intro h
        exact (List.Nodup.not_mem hnd) (h ▸ hmem)
      rw [Pcrs.setEach_cons, ih _ (List.Nodup.of_cons hnd) hmem]
      cases g j with
      | none => rfl
      | some v => simp [Pcrs.set_map, hij]

theorem mem_PCR_INDEXES (i : PcrIndex) : i ∈ PCR_INDEXES := by
  cases i <;> decide

theorem PCR_INDEXES_nodup : PCR_INDEXES.Nodup := by decide

theorem Pcrs.from_fn_map (func : PcrIndex → Pcr) (i : PcrIndex) :
    (Pcrs.from_fn func).map i = some (func i) := by
  rw [Pcrs.from_fn,
    Pcrs.setEach_map_mem _ _ _ _ PCR_INDEXES_nodup (mem_PCR_INDEXES i)]

theorem Pcrs.zeros_map (i : PcrIndex) : Pcrs.zeros.map i = some Pcr.zero :=
  Pcrs.from_fn_map _ i

theorem Pcrs.fromMap_map (values : PcrIndex → Option Pcr) (i : PcrIndex) :
    (Pcrs.fromMap values).map i
      = match values i with | some v => some v | none => some Pcr.zero := by
  rw [Pcrs.fromMap,
    Pcrs.setEach_map_mem _ _ _ _ PCR_INDEXES_nodup (mem_PCR_INDEXES i)]
  cases values i with
  | none => exact Pcrs.zeros_map i
  | some v => rfl

theorem Pcrs.seed_map (values : PcrIndex → Option String) (i : PcrIndex) :
    (Pcrs.seed values).map i
      = match values i with
        | some s => some (Pcr.ofSeed s)
        | none => some Pcr.zero := by
  rw [Pcrs.seed,
    Pcrs.setEach_map_mem _ _ _ _ PCR_INDEXES_nodup (mem_PCR_INDEXES i)]
  cases values i with
  | none => exact Pcrs.zeros_map i
  | some s => rfl

theorem PcrIndex.tryFrom_not_mem :
    ∀ n : Nat, n ∉ ([0, 1, 2, 3, 4, 8] : List Nat) →
      PcrIndex.tryFrom n = .error "Invalid PCR index provided"
  | 0, h => absurd (by decide) h
  | 1, h => absurd (by decide) h
  | 2, h => absurd (by decide) h
  | 3, h => absurd (by decide) h
  | 4, h => absurd (by decide) h
  | 5, _ => rfl
  | 6, _ => rfl
  | 7, _ => rfl
  | 8, h => absurd (by decide) h
  | _ + 9, _ => rfl

/-- Claim C9: dereferencing a `Time` through its public `Deref`
implementation unconditionally panics (`todo!()`), for every `Time`,
however constructed. -/
theorem claim_C9_time_deref_panics (t : Time) :
    Time.deref t = .error "not yet implemented" := rfl

/-- Claim C5: every `Pcrs` produced by any constructor (`zeros`, `default`,
`from_fn`, `rand`, `From<BTreeMap>`, `seed`) maps every valid index to a
`Pcr`; `set` preserves this; consequently `get` never hits its `expect`
panic (the lookup is `some`) on such a value. -/
theorem claim_C5_pcrs_invariant :
    Pcrs.Complete Pcrs.zeros
  ∧ Pcrs.Complete Pcrs.defaultPcrs
  ∧ (∀ func, Pcrs.Complete (Pcrs.from_fn func))
  ∧ (∀ sample, Pcrs.Complete (Pcrs.rand sample))
  ∧ (∀ values, Pcrs.Complete (Pcrs.fromMap values))
  ∧ (∀ values, Pcrs.Complete (Pcrs.seed values))
  ∧ (∀ p i v, Pcrs.Complete p → Pcrs.Complete (p.set i v))
  ∧ (∀ p i, Pcrs.Complete p → (p.get i).isSome) := by
  refine ⟨?_, ?_, ?_, ?_, ?_, ?_, ?_, ?_⟩
  · intro i; rw [Pcrs.zeros_map]; rfl
  · intro i; rw [Pcrs.defaultPcrs, Pcrs.zeros_map]; rfl
  · intro func i; rw [Pcrs.from_fn_map]; rfl
  · intro sample i; rw [Pcrs.rand, Pcrs.from_fn_map]; rfl
  · intro values i; rw [Pcrs.fromMap_map]; cases values i <;> rfl
  · intro values i; rw [Pcrs.seed_map]; cases values i <;> rfl
  · intro p j v hp i
    rw [Pcrs.set_map]
    by_cases h : i = j
    · simp [h]
    · simp only [if_neg h]; exact hp i
  · intro p i hp; exact hp i

/-- Witness for C5: a concrete constructor-produced and then `set` `Pcrs`
still answers `get` with a value. -/
theorem claim_C5_witness :
    ((Pcrs.zeros.set PcrIndex.zero Pcr.zero).get PcrIndex.eight).isSome = true :=
  claim_C5_pcrs_invariant.2.2.2.2.2.2.2 _ PcrIndex.eight
    (claim_C5_pcrs_invariant.2.2.2.2.2.2.1 Pcrs.zeros PcrIndex.zero Pcr.zero
      claim_C5_pcrs_invariant.1)

/-- Claim C4: `DevNitro::process_request` answers `DescribePCR` with
`lock = true` and the stored PCR for every valid index, `Error(InvalidIndex)`
for every other index, and `Error(InvalidOperation)` for every request
variant other than `Attestation` and `DescribePCR`. -/
theorem claim_C4_process_request (d : DevNitro) :
    (∀ index i pcr, PcrIndex.tryFrom index = .ok i → d.pcrs.map i = some pcr →
      d.process_request (.describePCR index) = some (.describePCR true pcr.val))
  ∧ (∀ index, index ∉ ([0, 1, 2, 3, 4, 8] : List Nat) →
      d.process_request (.describePCR index) = some (.error .invalidIndex))
  ∧ (∀ index data,
      d.process_request (.extendPCR index data) = some (.error .invalidOperation))
  ∧ (∀ index, d.process_request (.lockPCR index) = some (.error .invalidOperation))
  ∧ (∀ range, d.process_request (.lockPCRs range) = some (.error .invalidOperation))
  ∧ d.process_request .describeNSM = some (.error .invalidOperation)
  ∧ d.process_request .getRandom = some (.error .invalidOperation) := by
  refine ⟨?_, ?_, fun _ _ => rfl, fun _ => rfl, fun _ => rfl, rfl, rfl⟩
  · intro index i pcr h1 h2
    simp [DevNitro.process_request, DevNitro.describe_pcr, h1, Pcrs.get, h2]
  · intro index h
    simp [DevNitro.process_request, DevNitro.describe_pcr,
      PcrIndex.tryFrom_not_mem index h]

/-- Witness for C4: the sample driver on a valid index, an invalid index and
a non-implemented request variant. -/
theorem claim_C4_witness :
    sampleDriver.process_request (.describePCR 8)
      = some (.describePCR true (List.replicate 48 0))
  ∧ sampleDriver.process_request (.describePCR 5) = some (.error .invalidIndex)
  ∧ sampleDriver.process_request .getRandom = some (.error .invalidOperation) :=
  ⟨(claim_C4_process_request sampleDriver).1 8 .eight Pcr.zero rfl
      (Pcrs.zeros_map .eight),
    (claim_C4_process_request sampleDriver).2.1 5 (by decide),
    (claim_C4_process_request sampleDriver).2.2.2.2.2.2⟩

/-- Claim C6 (failing input): in `phony/pcrs.rs`, a `Pcrs` built by
`TryFrom<BTreeMap<usize, Vec<u8>>>` from a map omitting a valid index makes
`checked_get` fail on that valid index with `"Failed to index PCR"` — the
error the code's own comment calls unreachable — contradicting the claim
that `checked_get` succeeds for every index in `{0,1,2,3,4,8}`. -/
theorem claim_C6_checked_get_failing_input :
    (Phony.Pcrs.tryFrom []).toOption.map (fun p => p.checked_get 0)
      = some (.error "Failed to index PCR") := rfl

/-- Claim C10: for every `Attestation` request processed by `DevNitro`, the
attestation document embedded in the response's signed bytes has
`module_id = "unsecure-development-attestation-document"`, independent of the
request's optional fields and of the driver's configuration. -/
theorem claim_C10_attestation_module_id (d : DevNitro)
    (user_data nonce public_key : Option (List Nat)) :
    ∃ document,
      d.attestation user_data nonce public_key = Response.attestation document
      ∧ embeddedDoc document = some (d.attestationDoc user_data nonce public_key)
      ∧ (d.attestationDoc user_data nonce public_key).module_id
          = "unsecure-development-attestation-document" := by
  refine ⟨_, rfl, ?_, rfl⟩
  simp [embeddedDoc, DevNitro.attestation, AttestationDoc.sign,
    CoseSign1.from_slice_to_vec, AttestationDoc.from_binary_to_binary]

/-- Claim C8: `sign` always succeeds (in the model the COSE encoding — the
only fallible step in the source — is total), and its output is the
serialized `CoseSign1` whose protected header carries `algorithm = ES384`,
whose payload is the CBOR encoding of the document, and whose signature is
the ECDSA signature over the COSE to-be-signed structure with empty AAD. -/
theorem claim_C8_sign_shape (d : AttestationDoc) (k : SigningKey) :
    AttestationDoc.sign d k = .ok (CoseSign1.to_vec
        ⟨signHeaders, some d.to_binary,
          ecdsaSign k (sigStructure signHeaders [] d.to_binary)⟩)
  ∧ ∀ blob, AttestationDoc.sign d k = .ok blob →
      CoseSign1.from_slice blob = some
        ⟨signHeaders, some d.to_binary,
          ecdsaSign k (sigStructure signHeaders [] d.to_binary)⟩
      ∧ signHeaders.alg = some ES384 := by
  refine ⟨rfl, fun blob h => ?_⟩
  have h2 : blob = CoseSign1.to_vec
      ⟨signHeaders, some d.to_binary,
        ecdsaSign k (sigStructure signHeaders [] d.to_binary)⟩ := by
    have h3 : Except.ok (ε := String) blob = .ok (CoseSign1.to_vec
        ⟨signHeaders, some d.to_binary,
          ecdsaSign k (sigStructure signHeaders [] d.to_binary)⟩) := h ▸ rfl
    injection h3
  rw [h2]
  exact ⟨CoseSign1.from_slice_to_vec _, rfl⟩

/-- Witness for C8: the sample document and key. -/
theorem claim_C8_witness :
    CoseSign1.from_slice sampleBlob = some
      ⟨signHeaders, some sampleDoc.to_binary,
        ecdsaSign endKey (sigStructure signHeaders [] sampleDoc.to_binary)⟩
    ∧ signHeaders.alg = some ES384 :=
  (claim_C8_sign_shape sampleDoc endKey).2 sampleBlob rfl

theorem SrcCert.verify_some_eq (cv : SrcCert.ChainVerifier) (t : Nat)
    (crls : List CertRevocationList) (h : crls ≠ []) :
    cv.verify t (some crls)
      = if verifyForUsage cv.end_cert cv.trust_anchor
            (cv.int_certs.filterMap Cert.fromDer) t
            (some ⟨crls, .chain, .deny, .enforce⟩)
        then some (.ok ()) else none := by
  cases crls with
  | nil => exact absurd rfl h
  | cons c cs => rfl

/-- Claim C3: the chain-verification step of the `src/src/cert.rs` revision
takes an optional CRL list; with `None` no revocation checking occurs (the
revocation hook is vacuous), and with a supplied list it runs the chain
check with revocation options that check the whole chain, deny unknown
status and enforce CRL expiration — so a chain certificate with no covering
CRL makes verification fail. -/
theorem claim_C3_revocation_parameter (cv : SrcCert.ChainVerifier) (t : Nat) :
    (∀ chain t2, revocationOk none chain t2 = true)
  ∧ cv.verify t none
      = (if verifyForUsage cv.end_cert cv.trust_anchor
            (cv.int_certs.filterMap Cert.fromDer) t none
        then some (.ok ()) else none)
  ∧ (∀ crls, crls ≠ [] →
      cv.verify t (some crls)
        = if verifyForUsage cv.end_cert cv.trust_anchor
              (cv.int_certs.filterMap Cert.fromDer) t
              (some ⟨crls, .chain, .deny, .enforce⟩)
          then some (.ok ()) else none)
  ∧ (∀ crls, crls ≠ [] →
      (∀ crl ∈ crls, crl.issuerKey ≠ cv.end_cert.issuerKey) →
      cv.verify t (some crls) ≠ some (.ok ())) := by
  refine ⟨fun chain t2 => rfl, rfl, SrcCert.verify_some_eq cv t, ?_⟩
  intro crls hne hcov
  rw [SrcCert.verify_some_eq cv t crls hne]
  have hfind : (crls.find? fun crl => crl.issuerKey == cv.end_cert.issuerKey) = none := by
    apply List.find?_eq_none.mpr
    intro crl hmem
    simpa using hcov crl hmem
  have hfalse : verifyForUsage cv.end_cert cv.trust_anchor
      (cv.int_certs.filterMap Cert.fromDer) t
      (some ⟨crls, .chain, .deny, .enforce⟩) = false := by
    unfold verifyForUsage
    cases hbp : buildPath ((cv.int_certs.filterMap Cert.fromDer).length + 1)
        (cv.int_certs.filterMap Cert.fromDer) cv.trust_anchor cv.end_cert t with
    | none => simp [hbp]
    | some path =>
      simp only [hbp]
      have : revocationOk (some ⟨crls, .chain, .deny, .enforce⟩)
          (cv.end_cert :: path) t = false := by
        simp [revocationOk, revocationStatusOk, hfind]
      simp [this]
  rw [hfalse]
  simp

/-- Witness for C3: the sample chain verifies without a CRL list, and fails
with a CRL list that covers none of its certificates (unknown revocation
status is a failure). -/
theorem claim_C3_witness :
    sampleSrcVerifier.verify sampleTime none = some (.ok ())
  ∧ sampleSrcVerifier.verify sampleTime (some sampleCrls) ≠ some (.ok ()) := by
  constructor
  · rw [(claim_C3_revocation_parameter sampleSrcVerifier sampleTime).2.1]
    decide
  · exact (claim_C3_revocation_parameter sampleSrcVerifier sampleTime).2.2.2
      sampleCrls (by decide) (by decide)

theorem Pcrs.ext_map (p q : Pcrs) (h : p.map = q.map) : p = q := by
  cases p
  cases q
  simpa using h

/-- Claim C7 (amended): `Pcrs::seed` is deterministic and pointwise defined —
each index present in the seed map gets the SHA-384 digest of its seed
string, every omitted index gets the all-zero `Pcr`, equal maps give equal
results, and changing one seed value to a string with a DIFFERENT SHA-384
digest changes the result.  (The unamended "changing any one seed value
changes the result" fails: SHA-384 is not injective, see the
counterexample.) -/
theorem claim_C7_seed_pointwise :
    (∀ values i s, values i = some s →
      (Pcrs.seed values).map i = some (Pcr.ofSeed s))
  ∧ (∀ values i, values i = none → (Pcrs.seed values).map i = some Pcr.zero)
  ∧ (∀ v1 v2, v1 = v2 → Pcrs.seed v1 = Pcrs.seed v2)
  ∧ (∀ (values : PcrIndex → Option String) (i : PcrIndex) s1 s2,
      Pcr.ofSeed s1 ≠ Pcr.ofSeed s2 →
      Pcrs.seed (fun j => if j = i then some s1 else values j)
        ≠ Pcrs.seed (fun j => if j = i then some s2 else values j)) := by
  refine ⟨?_, ?_, fun v1 v2 h => h ▸ rfl, ?_⟩
  · intro values i s h
    rw [Pcrs.seed_map, h]
  · intro values i h
    rw [Pcrs.seed_map, h]
  · intro values i s1 s2 hne heq
    have h1 := congrArg (fun p => Pcrs.map p i) heq
    simp only [Pcrs.seed_map] at h1
    simp at h1
    exact hne h1

/-- Witness for C7: a concrete one-entry seed map — the seeded index carries
the digest, an omitted index carries zeros, and replacing the seed string
"a" by "b" (different digests) changes the result. -/
theorem claim_C7_witness :
    (Pcrs.seed fun j => if j = PcrIndex.zero then some "a" else none).map PcrIndex.zero
      = some (Pcr.ofSeed "a")
  ∧ (Pcrs.seed fun j => if j = PcrIndex.zero then some "a" else none).map PcrIndex.one
      = some Pcr.zero
  ∧ Pcrs.seed (fun j => if j = PcrIndex.zero then some "a" else none)
      ≠ Pcrs.seed (fun j => if j = PcrIndex.zero then some "b" else none) := by
  refine ⟨claim_C7_seed_pointwise.1 _ PcrIndex.zero "a" rfl,
    claim_C7_seed_pointwise.2.1 _ PcrIndex.one rfl, ?_⟩
  exact claim_C7_seed_pointwise.2.2.2 (fun _ => none) PcrIndex.zero "a" "b"
    (by set_option maxRecDepth 1000000 in decide)

/-- Counterexample for C7: "changing any one seed value changes the result"
is false — SHA-384 maps infinitely many strings onto finitely many digests,
so two different seed strings with equal digests exist, and seed maps that
differ only in that one value produce equal `Pcrs`. -/
theorem claim_C7_counterexample :
    ∃ (i : PcrIndex) (s1 s2 : String) (values : PcrIndex → Option String),
      s1 ≠ s2
      ∧ Pcrs.seed (fun j => if j = i then some s1 else values j)
          = Pcrs.seed (fun j => if j = i then some s2 else values j) := by
  obtain ⟨s1, s2, hne, hcol⟩ := Finite.exists_ne_map_eq_of_infinite
    fun s : String => fun j : Fin 48 =>
      (⟨(Sha384.digest (utf8Bytes s)).getD j.val 0, Sha384.digest_lt _ _⟩ : Fin 256)
  refine ⟨PcrIndex.zero, s1, s2, fun _ => none, hne, ?_⟩
  have hdig : Sha384.digest (utf8Bytes s1) = Sha384.digest (utf8Bytes s2) := by
    apply List.ext_getElem
      (by rw [Sha384.digest_length, Sha384.digest_length])
    intro n h1 h2
    have h48 : n < 48 := by simpa [Sha384.digest_length] using h1
    have h3 := congrArg Fin.val (congrFun hcol ⟨n, h48⟩)
    simp only at h3
    rw [List.getD_eq_getElem _ _ h1, List.getD_eq_getElem _ _ h2] at h3
    exact h3
  have hp : Pcr.ofSeed s1 = Pcr.ofSeed s2 := Subtype.ext hdig
  apply Pcrs.ext_map
  funext j
  rw [Pcrs.seed_map, Pcrs.seed_map]
  by_cases hj : j = PcrIndex.zero
  · simp [hj, hp]
  · simp [hj]

/-- Claim C1: signing an `AttestationDoc` whose `certificate` is the
end-entity certificate of a chain and whose `cabundle` holds that chain's
intermediates, with the matching EC P-384 key, and then verifying the bytes
with `from_cose` against the chain's root at a time within the chain's
validity window, returns `Ok` of a document equal to the original in all
fields. -/
theorem claim_C1_sign_verify_roundtrip (doc : AttestationDoc) (root endc : Cert)
    (ints : List Cert) (k : SigningKey) (t : Nat)
    (hcert : doc.certificate = endc.toDer)
    (hbundle : doc.cabundle = ints.map Cert.toDer)
    (hkeytype : endc.keyType = KeyType.ec)
    (hkey : k.pub = endc.subjectKey)
    (hchain : verifyForUsage endc root ints t none = true) :
    ∃ blob, AttestationDoc.sign doc k = .ok blob
      ∧ AttestationDoc.from_cose blob root.toDer t = .ok doc := by
  refine ⟨CoseSign1.to_vec ⟨signHeaders, some doc.to_binary,
    ecdsaSign k (sigStructure signHeaders [] doc.to_binary)⟩, rfl, ?_⟩
  unfold AttestationDoc.from_cose
  simp only [CoseSign1.from_slice_to_vec, AttestationDoc.from_binary_to_binary]
  unfold ChainVerifier.new
  simp only [hcert, Cert.fromDer_toDer]
  unfold ChainVerifier.verify
  simp only [hbundle, filterMap_fromDer_map_toDer, hchain, if_true]
  rw [if_pos hkeytype]
  have hs : CoseSign1.verify_signature
      ⟨signHeaders, some doc.to_binary,
        ecdsaSign k (sigStructure signHeaders [] doc.to_binary)⟩
      [] endc.subjectKey = true := by
    simp [CoseSign1.verify_signature, ecdsaVerify, ecdsaSign, hkey]
  rw [hs]
  simp

/-- Witness for C1: the concrete sample chain, key, document and time. -/
theorem claim_C1_witness :
    sampleDoc.certificate = endCert.toDer
  ∧ sampleDoc.cabundle = [intCert].map Cert.toDer
  ∧ endCert.keyType = KeyType.ec
  ∧ endKey.pub = endCert.subjectKey
  ∧ verifyForUsage endCert rootCert [intCert] sampleTime none = true
  ∧ ∃ blob, AttestationDoc.sign sampleDoc endKey = .ok blob
      ∧ AttestationDoc.from_cose blob rootCert.toDer sampleTime = .ok sampleDoc :=
  ⟨rfl, rfl, rfl, rfl, by decide,
    claim_C1_sign_verify_roundtrip sampleDoc rootCert endCert [intCert] endKey
      sampleTime rfl rfl rfl rfl (by decide)⟩

/-- Claim C2 (amended): flipping any byte of the signed COSE payload before
verification makes `from_cose` fail — it never returns success.  (The
original claim's "fails with a SignatureVerification error" is too strong:
the error kind is not guaranteed, as the counterexample's flip shows by
failing with `InvalidAttestationDoc` instead.) -/
theorem claim_C2_tamper_rejected (doc : AttestationDoc) (k : SigningKey)
    (root_der : List Nat) (t : Nat) (blob : List Nat) (i b : Nat)
    (hsign : AttestationDoc.sign doc k = .ok blob)
    (hi : i < doc.to_binary.length)
    (hb : b ≠ doc.to_binary.getD i 0) :
    ∀ d2, AttestationDoc.from_cose (tamperPayload blob i b) root_der t ≠ .ok d2 := by
  have hblob : blob = CoseSign1.to_vec ⟨signHeaders, some doc.to_binary,
      ecdsaSign k (sigStructure signHeaders [] doc.to_binary)⟩ := by
    have h3 : Except.ok (ε := String) blob = .ok (CoseSign1.to_vec
        ⟨signHeaders, some doc.to_binary,
          ecdsaSign k (sigStructure signHeaders [] doc.to_binary)⟩) := hsign ▸ rfl
    injection h3
  subst hblob
  have hne : doc.to_binary.set i b ≠ doc.to_binary := by
    intro hEq
    have h4 := congrArg (fun l => l.getD i 0) hEq
    simp only at h4
    rw [List.getD_eq_getElem _ _ (by simpa using hi),
      List.getD_eq_getElem _ _ hi] at h4
    simp at h4
    exact hb (by rw [List.getD_eq_getElem _ _ hi]; exact h4)
  have htp : tamperPayload (CoseSign1.to_vec ⟨signHeaders, some doc.to_binary,
      ecdsaSign k (sigStructure signHeaders [] doc.to_binary)⟩) i b
      = CoseSign1.to_vec ⟨signHeaders, some (doc.to_binary.set i b),
        ecdsaSign k (sigStructure signHeaders [] doc.to_binary)⟩ := by
    simp [tamperPayload, CoseSign1.from_slice_to_vec]
  rw [htp]
  intro d2
  unfold AttestationDoc.from_cose
  simp only [CoseSign1.from_slice_to_vec]
  cases hfb : AttestationDoc.from_binary (doc.to_binary.set i b) with
  | none => simp
  | some doc2 =>
    simp only
    cases hnew : ChainVerifier.new root_der doc2.cabundle doc2.certificate with
    | error e => simp
    | ok cv =>
      simp only
      cases hv : cv.verify t with
      | error e => simp
      | ok u =>
        cases u
        simp only
        cases hfd : Cert.fromDer doc2.certificate with
        | none => simp
        | some dc =>
          simp only
          by_cases hkt : dc.keyType = KeyType.ec
          · rw [if_pos hkt]
            have hsig : CoseSign1.verify_signature
                ⟨signHeaders, some (doc.to_binary.set i b),
                  ecdsaSign k (sigStructure signHeaders [] doc.to_binary)⟩
                [] dc.subjectKey = false := by
              unfold CoseSign1.verify_signature ecdsaVerify ecdsaSign
              simp only [Option.getD_some]
              have hmsg : (sigStructure signHeaders [] doc.to_binary
                  == sigStructure signHeaders [] (doc.to_binary.set i b)) = false := by
                apply beq_eq_false_iff_ne.mpr
                intro hEq2
                exact hne (sigStructure_payload_inj _ _ _ _ hEq2.symm)
              simp [hmsg]
            rw [hsig]
            simp
          · rw [if_neg hkt]
            simp

/-- Witness for C2: tampering token 0 of the sample blob's payload is
rejected for every candidate output document. -/
theorem claim_C2_witness :
    AttestationDoc.sign sampleDoc endKey = .ok sampleBlob
  ∧ 0 < sampleDoc.to_binary.length
  ∧ (999 : Nat) ≠ sampleDoc.to_binary.getD 0 0
  ∧ ∀ d2, AttestationDoc.from_cose (tamperPayload sampleBlob 0 999)
      rootCert.toDer sampleTime ≠ .ok d2 :=
  ⟨rfl, by decide, by decide,
    claim_C2_tamper_rejected sampleDoc endKey rootCert.toDer sampleTime
      sampleBlob 0 999 rfl (by decide) (by decide)⟩

set_option maxRecDepth 100000 in
/-- Counterexample for C2: the claim says every payload byte flip yields a
`SignatureVerification` failure, but flipping token 0 of the sample payload
(a CBOR length) breaks the document decode first, so `from_cose` fails with
`InvalidAttestationDoc`, which is not the `Verification` kind. -/
theorem claim_C2_counterexample :
    AttestationDoc.from_cose (tamperPayload sampleBlob 0 999)
        rootCert.toDer sampleTime
      = .error .invalidAttestationDoc
  ∧ VerifierErrorKind.invalidAttestationDoc ≠ VerifierErrorKind.verification :=
  ⟨by decide, by decide⟩
